import Mathlib

/-!
Shallow embedding of the WebRTC signaling relay in `src/signaling/index.ts`.

The server keeps a global registry `rooms : Map<string, Map<string, Client>>`
and reacts to four websocket events: `open`, `message`, `close`, `drain`.
JavaScript `Map`s are insertion-ordered, so we model them as association
lists; `set` replaces in place (keeping the key's position) or appends,
`delete` removes the key's entry, `forEach`/`entries()` iterate in list
order.  A websocket handle (`ws`) is modelled as a `Nat` identifying the
underlying transport connection; an outbound `ws.send(...)` is recorded as a
`(ws, OutMsg)` pair in the returned send list.  Each handler takes the
registry before the event and returns the registry after it together with
the sends it performed, in order.
-/

namespace Signaling

/-- One entry of a room's map: `{ ws, id: clientId, roomId }` from
`src/signaling/index.ts` (the `Client` type). -/
structure Client where
  ws : Nat
  id : String
  roomId : String
deriving DecidableEq

/-- A room: the insertion-ordered `Map<string, Client>` keyed by client id. -/
abbrev Room := List (String × Client)

/-- The global registry: `Map<string, Map<string, Client>>` keyed by room id. -/
abbrev Registry := List (String × Room)

/-- JS `Map.has`. -/
def mapHas (m : List (String × α)) (k : String) : Bool :=
  m.any (fun p => p.1 == k)

/-- JS `Map.get` (`none` when the key is absent). -/
def mapGet? (m : List (String × α)) (k : String) : Option α :=
  (m.find? (fun p => p.1 == k)).map (fun p => p.2)

/-- JS `Map.set`: update in place (the key keeps its insertion position) or
append a fresh entry at the end. -/
def mapSet (m : List (String × α)) (k : String) (v : α) : List (String × α) :=
  if mapHas m k then m.map (fun p => if p.1 == k then (k, v) else p)
  else m ++ [(k, v)]

/-- JS `Map.delete`: drop the key's entry, keeping every other entry in
order. -/
def mapDelete (m : List (String × α)) (k : String) : List (String × α) :=
  m.filter (fun p => p.1 != k)

/-- An inbound websocket frame as the `message` handler sees it:
`JSON.parse` either throws (`malformed`, also covering non-object payloads
whose destructuring throws) or yields an object whose `type`, `target` and
`sender` fields may each be absent. -/
inductive InMsg where
  | malformed
  | parsed (type target sender : Option String)
deriving DecidableEq

/-- An outbound frame: one of the three server-synthesised control messages,
or an inbound frame forwarded verbatim (`ws.send(message)`). -/
inductive OutMsg where
  | connected (clientId : String)
  | peerJoined (peerId : String) (timestamp : Nat)
  | peerLeft (peerId : String) (timestamp : Nat)
  | forwarded (frame : InMsg)
deriving DecidableEq

/-- One performed `send`: target websocket and the frame written to it. -/
abbrev Send := Nat × OutMsg

/-- JS truthiness of an optional string field: `undefined` and `""` are
falsy, every other string is truthy. -/
def truthy : Option String → Bool
  | none => false
  | some s => s != ""

/-- `getOrCreateRoom` from the source: create an empty room under `roomId`
if absent, then return the (possibly updated) registry and the room. -/
def getOrCreateRoom (rooms : Registry) (roomId : String) : Registry × Room :=
  if mapHas rooms roomId then (rooms, (mapGet? rooms roomId).getD [])
  else
    let rooms1 := mapSet rooms roomId []
    (rooms1, (mapGet? rooms1 roomId).getD [])

/-- `broadcastToRoom` from the source: send `msg` to every client of the
room except `senderId`, in the room's iteration order; if the room id is
unknown, send nothing. -/
def broadcastToRoom (rooms : Registry) (roomId senderId : String)
    (msg : OutMsg) : List Send :=
  match mapGet? rooms roomId with
  | none => []
  | some room =>
      room.filterMap (fun p =>
        if p.1 != senderId then some (p.2.ws, msg) else none)

/-- The `open` handler: add the freshly identified client to its room
(creating the room if needed), send it `connected`, and broadcast
`peer-joined` to the rest of the room.  `clientId` stands for the
server-generated `crypto.randomUUID()` and `now` for `Date.now()`. -/
def openHandler (rooms : Registry) (ws : Nat) (clientId roomId : String)
    (now : Nat) : Registry × List Send :=
  let gc := getOrCreateRoom rooms roomId
  let rooms2 := mapSet gc.1 roomId
    (mapSet gc.2 clientId { ws := ws, id := clientId, roomId := roomId })
  (rooms2,
    (ws, .connected clientId) ::
      broadcastToRoom rooms2 roomId clientId (.peerJoined clientId now))

/-- The loop `for (const [id, room] of rooms.entries()) if (room.has(sender))`
in the `message` handler: the first room (in registry order) containing the
sender's id. -/
def findSenderRoom (rooms : Registry) (senderId : String) :
    Option (String × Room) :=
  rooms.find? (fun p => mapHas p.2 senderId)

/-- The `switch (type)` dispatch of the `message` handler, after the sender's
room has been located.  Directed types forward the verbatim frame to the
target when `target` is truthy and present in the same room; `broadcast`
relays to everyone else in the room; any other (or absent) type is
dropped. -/
def routeParsed (rooms : Registry) (roomId : String) (clientRoom : Room)
    (senderId : String) (type target : Option String) (frame : InMsg) :
    List Send :=
  match type with
  | some t =>
      if t == "offer" || t == "answer" || t == "ice-candidate" then
        if truthy target && mapHas clientRoom (target.getD "") then
          match mapGet? clientRoom (target.getD "") with
          | some targetClient => [(targetClient.ws, .forwarded frame)]
          | none => []
        else []
      else if t == "broadcast" then
        broadcastToRoom rooms roomId senderId (.forwarded frame)
      else []
  | none => []

/-- The `message` handler: parse (a parse failure is caught and dropped),
require a truthy `sender`, locate the sender's room, and dispatch by `type`.
The producing websocket `producerWs` is received but — exactly as in the
source — never consulted. -/
def messageHandler (rooms : Registry) (producerWs : Nat) (frame : InMsg) :
    Registry × List Send :=
  match frame with
  | .malformed => (rooms, [])
  | .parsed type target sender =>
      if truthy sender then
        match findSenderRoom rooms (sender.getD "") with
        | none => (rooms, [])
        | some (roomId, clientRoom) =>
            (rooms, routeParsed rooms roomId clientRoom (sender.getD "")
              type target frame)
      else (rooms, [])

/-- The inner `for (const [clientId, client] of room.entries())` search of
the `close` handler: first entry of the room whose stored websocket is the
closing one. -/
def findInRoom (room : Room) (w : Nat) : Option (String × Client) :=
  room.find? (fun q => q.2.ws == w)

/-- The nested loops of the `close` handler: scan rooms in registry order
and return the first (room id, room, client id, client) whose client holds
the closing websocket. -/
def findByWs : Registry → Nat → Option (String × Room × String × Client)
  | [], _ => none
  | p :: rest, w =>
      match findInRoom p.2 w with
      | some q => some (p.1, p.2, q.1, q.2)
      | none => findByWs rest w

/-- The `close` handler: find the closing websocket's entry, delete it from
its room, broadcast `peer-left` to the remaining members, and delete the
room when it became empty.  When no entry matches, nothing happens. -/
def closeHandler (rooms : Registry) (w : Nat) (now : Nat) :
    Registry × List Send :=
  match findByWs rooms w with
  | none => (rooms, [])
  | some (roomId, room, clientId, _) =>
      let room1 := mapDelete room clientId
      let rooms1 := mapSet rooms roomId room1
      let sends := broadcastToRoom rooms1 roomId clientId
        (.peerLeft clientId now)
      (if room1.isEmpty then mapDelete rooms1 roomId else rooms1, sends)

/-- The `drain` handler: logs `ws.getBufferedAmount()` and does nothing
else — no send, no registry change. -/
def drainHandler (rooms : Registry) (w buffered : Nat) :
    Registry × List Send :=
  (rooms, [])

/-- The room-existence invariant of the registry: every room present in the
registry has at least one member. -/
def roomsNonempty (rooms : Registry) : Prop :=
  ∀ p ∈ rooms, p.2 ≠ ([] : Room)

instance (rooms : Registry) : Decidable (roomsNonempty rooms) := by
  unfold roomsNonempty
  exact List.decidableBAll _ rooms

/-- A concrete two-member registry used to exercise the handlers: room `"r"`
holding client `"a"` on websocket `0` and client `"b"` on websocket `1`. -/
def sampleRegistry : Registry :=
  [("r", [("a", { ws := 0, id := "a", roomId := "r" }),
          ("b", { ws := 1, id := "b", roomId := "r" })])]

/-- A frame whose `sender` field names `"b"` although it is produced by the
connection of client `"a"` (websocket `0`): the spoofed-sender scenario. -/
def spoofFrame : InMsg := .parsed (some "broadcast") none (some "b")

/-! ### Lemmas about the map operations -/

theorem mapHas_eq_false_iff {α : Type} (m : List (String × α)) (k : String) :
    mapHas m k = false ↔ ∀ p ∈ m, p.1 ≠ k := by
  unfold mapHas
  simp [List.any_eq_false]

theorem mem_mapSet {α : Type} {m : List (String × α)} {k : String} {v : α}
    {p : String × α} (h : p ∈ mapSet m k v) :
    p = (k, v) ∨ (p ∈ m ∧ p.1 ≠ k) := by
  unfold mapSet at h
  cases hk : mapHas m k
  · rw [hk, if_neg (by simp)] at h
    rcases List.mem_append.mp h with h | h
    · exact Or.inr ⟨h, (mapHas_eq_false_iff m k).mp hk p h⟩
    · exact Or.inl (by simpa using h)
  · rw [hk, if_pos rfl] at h
    rcases List.mem_map.mp h with ⟨q, hq, hpq⟩
    split at hpq
    · exact Or.inl hpq.symm
    · rename_i hq1
      subst hpq
      exact Or.inr ⟨hq, by simpa using hq1⟩

theorem mapSet_ne_nil {α : Type} (m : List (String × α)) (k : String)
    (v : α) : mapSet m k v ≠ [] := by
  unfold mapSet
  cases hk : mapHas m k
  · rw [if_neg (by simp)]
    simp
  · rw [if_pos rfl]
    cases m with
    | nil => simp [mapHas] at hk
    | cons a l => simp

theorem mapGet?_map_update {α : Type} (k : String) (v : α)
    (m : List (String × α)) (h : mapHas m k = true) :
    mapGet? (m.map (fun p => if p.1 == k then (k, v) else p)) k = some v := by
  induction m with
  | nil => simp [mapHas] at h
  | cons a l ih =>
      by_cases ha : a.1 = k
      · simp [mapGet?, ha]
      · have hl : mapHas l k = true := by
          simp only [mapHas, List.any_cons, Bool.or_eq_true, beq_iff_eq] at h
          rcases h with h | h
          · exact absurd h ha
          · simpa [mapHas] using h
        rw [List.map_cons]
        have hfa : (if (a.1 == k) = true then (k, v) else a) = a := by
          simp [ha]
        rw [hfa]
        unfold mapGet?
        rw [List.find?_cons_of_neg _ (by simpa using ha)]
        exact ih hl

theorem mapGet?_append_new {α : Type} (k : String) (v : α)
    (m : List (String × α)) (h : mapHas m k = false) :
    mapGet? (m ++ [(k, v)]) k = some v := by
  induction m with
  | nil => simp [mapGet?]
  | cons a l ih =>
      have hall := (mapHas_eq_false_iff _ k).mp h
      have ha : a.1 ≠ k := hall a (by simp)
      have hl : mapHas l k = false := by
        rw [mapHas_eq_false_iff]
        intro p hp
        exact hall p (List.mem_cons_of_mem a hp)
      rw [List.cons_append]
      unfold mapGet?
      rw [List.find?_cons_of_neg _ (by simpa using ha)]
      exact ih hl

theorem mapGet?_mapSet_self {α : Type} (m : List (String × α)) (k : String)
    (v : α) : mapGet? (mapSet m k v) k = some v := by
  unfold mapSet
  cases hk : mapHas m k
  · rw [if_neg (by simp)]
    exact mapGet?_append_new k v m hk
  · rw [if_pos rfl]
    exact mapGet?_map_update k v m hk

theorem mem_mapDelete {α : Type} {m : List (String × α)} {k : String}
    {p : String × α} (h : p ∈ mapDelete m k) : p ∈ m ∧ p.1 ≠ k := by
  unfold mapDelete at h
  have h1 := List.mem_filter.mp h
  exact ⟨h1.1, by simpa using h1.2⟩

theorem mapHas_mapDelete_self {α : Type} (m : List (String × α))
    (k : String) : mapHas (mapDelete m k) k = false := by
  unfold mapHas mapDelete
  rw [List.any_eq_false]
  intro p hp
  simpa using (List.mem_filter.mp hp).2

/-! ### Lemmas about the handlers -/

theorem findByWs_spec {rooms : Registry} {w : Nat} {rid : String}
    {room : Room} {cid : String} {c : Client}
    (h : findByWs rooms w = some (rid, room, cid, c)) :
    (rid, room) ∈ rooms ∧ (cid, c) ∈ room ∧ c.ws = w := by
  induction rooms with
  | nil => simp [findByWs] at h
  | cons p rest ih =>
      unfold findByWs at h
      cases hf : findInRoom p.2 w with
      | some q =>
          rw [hf] at h
          have hq1 : q ∈ p.2 := List.mem_of_find?_eq_some hf
          have hq2 : q.2.ws = w := by simpa using List.find?_some hf
          obtain ⟨e1, e2, e3, e4⟩ :
              p.1 = rid ∧ p.2 = room ∧ q.1 = cid ∧ q.2 = c := by
            simpa [Prod.ext_iff] using h
          subst e1
          subst e2
          subst e3
          subst e4
          exact ⟨by simp, by simpa using hq1, hq2⟩
      | none =>
          rw [hf] at h
          have hr := ih h
          exact ⟨List.mem_cons_of_mem p hr.1, hr.2⟩

theorem findByWs_eq_none {rooms : Registry} {w : Nat}
    (h : ∀ p ∈ rooms, ∀ q ∈ p.2, q.2.ws ≠ w) : findByWs rooms w = none := by
  induction rooms with
  | nil => rfl
  | cons p rest ih =>
      unfold findByWs
      cases hf : findInRoom p.2 w with
      | some q =>
          exfalso
          exact h p (List.mem_cons_self p rest) q
            (List.mem_of_find?_eq_some hf)
            (by simpa using List.find?_some hf)
      | none =>
          exact ih (fun p2 hp2 => h p2 (List.mem_cons_of_mem _ hp2))

theorem messageHandler_fst (rooms : Registry) (w : Nat) (frame : InMsg) :
    (messageHandler rooms w frame).1 = rooms := by
  cases frame with
  | malformed => rfl
  | parsed t tgt s =>
      show (if truthy s = true then
          match findSenderRoom rooms (s.getD "") with
          | none => (rooms, [])
          | some (roomId, clientRoom) =>
              (rooms, routeParsed rooms roomId clientRoom (s.getD "") t tgt
                (InMsg.parsed t tgt s))
          else (rooms, [])).1 = rooms
      split
      · split
        · rfl
        · rfl
      · rfl

theorem mapHas_eq_true_of_mapGet? {α : Type} {m : List (String × α)}
    {k : String} {v : α} (h : mapGet? m k = some v) : mapHas m k = true := by
  unfold mapGet? at h
  unfold mapHas
  cases hf : m.find? (fun p => p.1 == k) with
  | none => rw [hf] at h; simp at h
  | some q =>
      rw [List.any_eq_true]
      have h3 := List.find?_some hf
      exact ⟨q, List.mem_of_find?_eq_some hf, h3⟩

theorem messageHandler_parsed (rooms : Registry) (w : Nat)
    (t tgt s : Option String) :
    messageHandler rooms w (.parsed t tgt s) =
      if truthy s = true then
        match findSenderRoom rooms (s.getD "") with
        | none => (rooms, [])
        | some (roomId, clientRoom) =>
            (rooms, routeParsed rooms roomId clientRoom (s.getD "") t tgt
              (.parsed t tgt s))
      else (rooms, []) := rfl

theorem messageHandler_not_truthy (rooms : Registry) (w : Nat)
    (t tgt s : Option String) (h : truthy s = false) :
    messageHandler rooms w (.parsed t tgt s) = (rooms, []) := by
  rw [messageHandler_parsed]
  simp [h]

theorem messageHandler_no_room (rooms : Registry) (w : Nat)
    (t tgt s : Option String)
    (h : findSenderRoom rooms (s.getD "") = none) :
    messageHandler rooms w (.parsed t tgt s) = (rooms, []) := by
  rw [messageHandler_parsed, h]
  split
  · rfl
  · rfl

theorem openHandler_fst (rooms : Registry) (w : Nat) (cid rid : String)
    (now : Nat) :
    (openHandler rooms w cid rid now).1 =
      mapSet (getOrCreateRoom rooms rid).1 rid
        (mapSet (getOrCreateRoom rooms rid).2 cid
          { ws := w, id := cid, roomId := rid }) := rfl

theorem getOrCreateRoom_fst_mem {rooms : Registry} {rid : String}
    {p : String × Room} (hp : p ∈ (getOrCreateRoom rooms rid).1) :
    p ∈ rooms ∨ p = (rid, ([] : Room)) := by
  unfold getOrCreateRoom at hp
  split at hp
  · exact Or.inl hp
  · rcases mem_mapSet hp with he | ⟨hm, _⟩
    · exact Or.inr he
    · exact Or.inl hm

theorem closeHandler_none {rooms : Registry} {w now : Nat}
    (hf : findByWs rooms w = none) :
    closeHandler rooms w now = (rooms, []) := by
  unfold closeHandler
  rw [hf]

theorem closeHandler_found {rooms : Registry} {w now : Nat} {rid : String}
    {room : Room} {cid : String} {c : Client}
    (hf : findByWs rooms w = some (rid, room, cid, c)) :
    closeHandler rooms w now =
      (if (mapDelete room cid).isEmpty then
          mapDelete (mapSet rooms rid (mapDelete room cid)) rid
        else mapSet rooms rid (mapDelete room cid),
       broadcastToRoom (mapSet rooms rid (mapDelete room cid)) rid cid
         (.peerLeft cid now)) := by
  unfold closeHandler
  rw [hf]

theorem openHandler_preserves {rooms : Registry} {w : Nat} {cid rid : String}
    {now : Nat} (h : roomsNonempty rooms) :
    roomsNonempty (openHandler rooms w cid rid now).1 := by
  rw [openHandler_fst]
  intro p hp
  rcases mem_mapSet hp with he | ⟨hm, hne⟩
  · rw [he]
    exact mapSet_ne_nil _ _ _
  · rcases getOrCreateRoom_fst_mem hm with hm2 | he2
    · exact h p hm2
    · exact absurd (by rw [he2]) hne

theorem closeHandler_preserves {rooms : Registry} {w now : Nat}
    (h : roomsNonempty rooms) :
    roomsNonempty (closeHandler rooms w now).1 := by
  cases hf : findByWs rooms w with
  | none =>
      rw [closeHandler_none hf]
      exact h
  | some r =>
      obtain ⟨rid, room, cid, c⟩ := r
      rw [closeHandler_found hf]
      intro p hp
      split at hp
      · have h1 := mem_mapDelete hp
        rcases mem_mapSet h1.1 with he | ⟨hm, _⟩
        · exact absurd (by rw [he]) h1.2
        · exact h p hm
      · rename_i hne
        rcases mem_mapSet hp with he | ⟨hm, _⟩
        · rw [he]
          show mapDelete room cid ≠ []
          intro hc
          rw [hc] at hne
          simp at hne
        · exact h p hm

theorem routeParsed_directed (rooms : Registry) (rid : String) (room : Room)
    (s t : String) (tgt : Option String) (frame : InMsg)
    (ht : t = "offer" ∨ t = "answer" ∨ t = "ice-candidate") :
    routeParsed rooms rid room s (some t) tgt frame =
      if truthy tgt && mapHas room (tgt.getD "") then
        match mapGet? room (tgt.getD "") with
        | some c => [(c.ws, .forwarded frame)]
        | none => []
      else [] := by
  rcases ht with h | h | h <;> subst h <;> simp [routeParsed]

theorem routeParsed_broadcast (rooms : Registry) (rid : String) (room : Room)
    (s : String) (tgt : Option String) (frame : InMsg) :
    routeParsed rooms rid room s (some "broadcast") tgt frame =
      broadcastToRoom rooms rid s (.forwarded frame) := by
  simp [routeParsed]

theorem messageHandler_found (rooms : Registry) (w : Nat)
    (t tgt : Option String) (s rid : String) (room : Room)
    (hs : s ≠ "") (hfind : findSenderRoom rooms s = some (rid, room)) :
    messageHandler rooms w (.parsed t tgt (some s)) =
      (rooms, routeParsed rooms rid room s t tgt (.parsed t tgt (some s))) := by
  rw [messageHandler_parsed]
  have hts : truthy (some s) = true := by simp [truthy, hs]
  rw [hts, if_pos rfl]
  simp only [Option.getD_some]
  rw [hfind]

theorem messageHandler_directed_hit (rooms : Registry) (w : Nat)
    (t s tg rid : String) (room : Room) (c : Client)
    (ht : t = "offer" ∨ t = "answer" ∨ t = "ice-candidate")
    (hs : s ≠ "") (htg : tg ≠ "")
    (hfind : findSenderRoom rooms s = some (rid, room))
    (hget : mapGet? room tg = some c) :
    (messageHandler rooms w (.parsed (some t) (some tg) (some s))).2 =
      [(c.ws, .forwarded (.parsed (some t) (some tg) (some s)))] := by
  rw [messageHandler_found rooms w (some t) (some tg) s rid room hs hfind]
  dsimp only
  rw [routeParsed_directed rooms rid room s t (some tg) _ ht]
  have h1 : truthy (some tg) = true := by simp [truthy, htg]
  have h2 : mapHas room ((some tg).getD "") = true := by
    rw [Option.getD_some]
    exact mapHas_eq_true_of_mapGet? hget
  rw [h1, h2, if_pos (by decide)]
  rw [Option.getD_some, hget]

theorem messageHandler_directed_miss (rooms : Registry) (w : Nat)
    (t s rid : String) (tgt : Option String) (room : Room)
    (ht : t = "offer" ∨ t = "answer" ∨ t = "ice-candidate")
    (hs : s ≠ "")
    (hfind : findSenderRoom rooms s = some (rid, room))
    (hmiss : truthy tgt = false ∨ mapHas room (tgt.getD "") = false) :
    (messageHandler rooms w (.parsed (some t) tgt (some s))).2 = [] := by
  rw [messageHandler_found rooms w (some t) tgt s rid room hs hfind]
  dsimp only
  rw [routeParsed_directed rooms rid room s t tgt _ ht]
  rcases hmiss with h | h
  · rw [h, if_neg (by simp)]
  · rw [h, if_neg (by simp)]

/-! ### Claim theorems -/

/-- C8: for every backpressure-drain event, the handler sends no frames,
removes nothing, and leaves the room registry unchanged — it only logs the
buffered-byte count. -/
theorem backpressure_only_observed (rooms : Registry) (w buffered : Nat) :
    drainHandler rooms w buffered = (rooms, []) := rfl

/-- C9: processing any inbound message frame — well-formed or malformed, of
any type and target — leaves the room registry exactly as it was; the
`message` handler never mutates it. -/
theorem routing_readonly_registry (rooms : Registry) (w : Nat)
    (frame : InMsg) : (messageHandler rooms w frame).1 = rooms :=
  messageHandler_fst rooms w frame

/-- C5: malformed input is dropped silently and atomically: an unparseable
frame, a parsed frame without a truthy `sender`, and a frame whose sender
is found in no room each produce no sends, leave the registry unchanged,
and return normally. -/
theorem malformed_input_dropped (rooms : Registry) (w : Nat)
    (t tgt s : Option String) :
    messageHandler rooms w .malformed = (rooms, []) ∧
    (truthy s = false →
      messageHandler rooms w (.parsed t tgt s) = (rooms, [])) ∧
    (findSenderRoom rooms (s.getD "") = none →
      messageHandler rooms w (.parsed t tgt s) = (rooms, [])) :=
  ⟨rfl, messageHandler_not_truthy rooms w t tgt s,
    messageHandler_no_room rooms w t tgt s⟩

/-- Witness for C5 on concrete inputs: a malformed frame, a frame with no
`sender`, and a frame from an unknown sender are all dropped. -/
theorem malformed_input_dropped_witness :
    messageHandler sampleRegistry 0 .malformed = (sampleRegistry, []) ∧
    messageHandler sampleRegistry 0
      (.parsed (some "broadcast") none none) = (sampleRegistry, []) ∧
    messageHandler sampleRegistry 0
      (.parsed (some "broadcast") none (some "ghost")) =
        (sampleRegistry, []) :=
  ⟨(malformed_input_dropped sampleRegistry 0 none none none).1,
   (malformed_input_dropped sampleRegistry 0 (some "broadcast") none
      none).2.1 (by decide),
   (malformed_input_dropped sampleRegistry 0 (some "broadcast") none
      (some "ghost")).2.2 (by decide)⟩

/-- C4 counterexample: in `sampleRegistry` the session on websocket `0` has
identifier `"a"`, yet a frame produced on websocket `0` whose `sender`
field says `"b"` is still routed (delivered to websocket `0`, the other
member relative to the claimed sender `"b"`): the router never compares
`sender` with the producing session's identifier. -/
theorem sender_validation_counterexample :
    mapGet? ((mapGet? sampleRegistry "r").getD []) "a" =
      some { ws := 0, id := "a", roomId := "r" } ∧
    spoofFrame = .parsed (some "broadcast") none (some "b") ∧
    "b" ≠ "a" ∧
    (messageHandler sampleRegistry 0 spoofFrame).2 =
      [(0, .forwarded spoofFrame)] := by
  decide

/-- C4 amended: the router drops a frame exactly when its `sender` is
absent/empty or is found in no room; it never consults the identity of the
producing connection, so routing is invariant under changing the producing
websocket. -/
theorem sender_validation_amended (rooms : Registry) (w w2 : Nat)
    (t tgt s : Option String) :
    ((truthy s = false ∨ findSenderRoom rooms (s.getD "") = none) →
      messageHandler rooms w (.parsed t tgt s) = (rooms, [])) ∧
    messageHandler rooms w (.parsed t tgt s) =
      messageHandler rooms w2 (.parsed t tgt s) := by
  constructor
  · intro h
    rcases h with h | h
    · exact messageHandler_not_truthy rooms w t tgt s h
    · exact messageHandler_no_room rooms w t tgt s h
  · rfl

/-- Witness for the amended C4 on concrete inputs: a senderless frame is
dropped, and the spoofed frame routes identically from two different
producing websockets. -/
theorem sender_validation_amended_witness :
    messageHandler sampleRegistry 0
      (.parsed (some "broadcast") none none) = (sampleRegistry, []) ∧
    messageHandler sampleRegistry 0 spoofFrame =
      messageHandler sampleRegistry 5 spoofFrame :=
  ⟨(sender_validation_amended sampleRegistry 0 0 (some "broadcast") none
      none).1 (Or.inl (by decide)),
   (sender_validation_amended sampleRegistry 0 5 (some "broadcast") none
      (some "b")).2⟩

/-- C3: directed delivery — for an `offer`, `answer` or `ice-candidate`
frame from a sender located in room `room`, when the target names a session
of that room the verbatim frame is sent to exactly that session and no
other; when the target is absent, empty or unknown in that room, nothing is
sent to anyone and no error is surfaced to the sender. -/
theorem directed_delivery (rooms : Registry) (w : Nat) (t s : String)
    (tgt : Option String) (rid : String) (room : Room)
    (ht : t = "offer" ∨ t = "answer" ∨ t = "ice-candidate")
    (hs : s ≠ "")
    (hfind : findSenderRoom rooms s = some (rid, room)) :
    (∀ tg c, tgt = some tg → tg ≠ "" → mapGet? room tg = some c →
      (messageHandler rooms w (.parsed (some t) tgt (some s))).2 =
        [(c.ws, .forwarded (.parsed (some t) tgt (some s)))]) ∧
    ((truthy tgt = false ∨ mapHas room (tgt.getD "") = false) →
      (messageHandler rooms w (.parsed (some t) tgt (some s))).2 = []) := by
  constructor
  · intro tg c htg htgne hget
    subst htg
    exact messageHandler_directed_hit rooms w t s tg rid room c ht hs htgne
      hfind hget
  · intro h
    exact messageHandler_directed_miss rooms w t s rid tgt room ht hs hfind h

/-- Witness for C3 on concrete inputs: in `sampleRegistry`, an `offer` from
`"a"` with target `"b"` is delivered only to websocket `1`, and an
`ice-candidate` from `"a"` with target `"ghost"` delivers nothing. -/
theorem directed_delivery_witness :
    (messageHandler sampleRegistry 0
      (.parsed (some "offer") (some "b") (some "a"))).2 =
      [(1, .forwarded (.parsed (some "offer") (some "b") (some "a")))] ∧
    (messageHandler sampleRegistry 0
      (.parsed (some "ice-candidate") (some "ghost") (some "a"))).2 = [] :=
  ⟨(directed_delivery sampleRegistry 0 "offer" "a" (some "b") "r"
      [("a", { ws := 0, id := "a", roomId := "r" }),
       ("b", { ws := 1, id := "b", roomId := "r" })]
      (Or.inl rfl) (by decide) (by decide)).1 "b"
      { ws := 1, id := "b", roomId := "r" } rfl (by decide) (by decide),
   (directed_delivery sampleRegistry 0 "ice-candidate" "a" (some "ghost") "r"
      [("a", { ws := 0, id := "a", roomId := "r" }),
       ("b", { ws := 1, id := "b", roomId := "r" })]
      (Or.inr (Or.inr rfl)) (by decide) (by decide)).2
      (Or.inr (by decide))⟩

/-- C10: self-directed echo — a directed frame whose `target` equals its
`sender` is delivered back to the sending session itself; directed dispatch
does not exclude the sender from being its own target. -/
theorem self_directed_echo (rooms : Registry) (w : Nat) (t s rid : String)
    (room : Room) (c : Client)
    (ht : t = "offer" ∨ t = "answer" ∨ t = "ice-candidate")
    (hs : s ≠ "")
    (hfind : findSenderRoom rooms s = some (rid, room))
    (hc : mapGet? room s = some c) :
    (messageHandler rooms w (.parsed (some t) (some s) (some s))).2 =
      [(c.ws, .forwarded (.parsed (some t) (some s) (some s)))] :=
  messageHandler_directed_hit rooms w t s s rid room c ht hs hs hfind hc

/-- Witness for C10 on concrete inputs: an `answer` from `"a"` targeting
`"a"` itself is echoed back to websocket `0`, `"a"`'s own connection. -/
theorem self_directed_echo_witness :
    (messageHandler sampleRegistry 0
      (.parsed (some "answer") (some "a") (some "a"))).2 =
      [(0, .forwarded (.parsed (some "answer") (some "a") (some "a")))] :=
  self_directed_echo sampleRegistry 0 "answer" "a" "r"
    [("a", { ws := 0, id := "a", roomId := "r" }),
     ("b", { ws := 1, id := "b", roomId := "r" })]
    { ws := 0, id := "a", roomId := "r" }
    (Or.inr (Or.inl rfl)) (by decide) (by decide) (by decide)

/-- C2: broadcast exclusion — a `broadcast` frame from a member of a room
is forwarded verbatim to every other session in the room, in the room's
iteration order, and is never sent to the sender's own session. -/
theorem broadcast_exclusion (rooms : Registry) (w : Nat) (s : String)
    (tgt : Option String) (rid : String) (room : Room)
    (hs : s ≠ "")
    (hfind : findSenderRoom rooms s = some (rid, room))
    (hget : mapGet? rooms rid = some room) :
    (messageHandler rooms w (.parsed (some "broadcast") tgt (some s))).2 =
      room.filterMap (fun p =>
        if p.1 != s then
          some (p.2.ws,
            OutMsg.forwarded (.parsed (some "broadcast") tgt (some s)))
        else none) ∧
    (∀ p ∈ room, p.1 ≠ s →
      (p.2.ws, OutMsg.forwarded (.parsed (some "broadcast") tgt (some s))) ∈
        (messageHandler rooms w (.parsed (some "broadcast") tgt (some s))).2) ∧
    (∀ w0 : Nat, (∀ p ∈ room, p.2.ws = w0 → p.1 = s) →
      ∀ q ∈ (messageHandler rooms w
          (.parsed (some "broadcast") tgt (some s))).2, q.1 ≠ w0) := by
  have hmain : (messageHandler rooms w
      (.parsed (some "broadcast") tgt (some s))).2 =
      room.filterMap (fun p =>
        if p.1 != s then
          some (p.2.ws,
            OutMsg.forwarded (.parsed (some "broadcast") tgt (some s)))
        else none) := by
    rw [messageHandler_found rooms w (some "broadcast") tgt s rid room hs
      hfind]
    dsimp only
    rw [routeParsed_broadcast]
    unfold broadcastToRoom
    rw [hget]
  refine ⟨hmain, ?_, ?_⟩
  · intro p hp hps
    rw [hmain, List.mem_filterMap]
    exact ⟨p, hp, by simp [hps]⟩
  · intro w0 hinj q hq
    rw [hmain] at hq
    rcases List.mem_filterMap.mp hq with ⟨p, hp, hpq⟩
    split at hpq
    · rename_i hps
      have hq2 := Option.some.inj hpq
      intro hqw
      have hws : p.2.ws = w0 := by
        rw [← hq2] at hqw
        simpa using hqw
      exact absurd (hinj p hp hws) (by simpa using hps)
    · exact absurd hpq (by simp)

/-- Witness for C2 on concrete inputs: a `broadcast` from `"a"` in
`sampleRegistry` is delivered exactly to websocket `1` (client `"b"`) and
not echoed to websocket `0`. -/
theorem broadcast_exclusion_witness :
    (messageHandler sampleRegistry 0
      (.parsed (some "broadcast") none (some "a"))).2 =
      [(1, .forwarded (.parsed (some "broadcast") none (some "a")))] := by
  rw [(broadcast_exclusion sampleRegistry 0 "a" none "r"
    [("a", { ws := 0, id := "a", roomId := "r" }),
     ("b", { ws := 1, id := "b", roomId := "r" })]
    (by decide) (by decide) (by decide)).1]
  decide

/-- C1: room existence invariant — every room present in the registry has
at least one member, and this is preserved by the open, message and close
handlers; joining a room id with no existing room creates it with exactly
one member; when the last member of a room leaves, the room is removed from
the registry. -/
theorem room_existence_invariant (rooms : Registry) (w now : Nat)
    (cid rid : String) (frame : InMsg) :
    (roomsNonempty rooms →
      roomsNonempty (openHandler rooms w cid rid now).1 ∧
      roomsNonempty (messageHandler rooms w frame).1 ∧
      roomsNonempty (closeHandler rooms w now).1) ∧
    (mapHas rooms rid = false →
      mapGet? (openHandler rooms w cid rid now).1 rid =
        some [(cid, { ws := w, id := cid, roomId := rid })]) ∧
    (∀ room c, findByWs rooms w = some (rid, room, cid, c) →
      room = [(cid, c)] →
      mapHas (closeHandler rooms w now).1 rid = false) := by
  refine ⟨fun h => ⟨openHandler_preserves h, ?_, closeHandler_preserves h⟩,
    ?_, ?_⟩
  · rw [messageHandler_fst]
    exact h
  · intro hno
    have hgc : getOrCreateRoom rooms rid = (mapSet rooms rid [], ([] : Room)) := by
      unfold getOrCreateRoom
      rw [hno, if_neg (by simp)]
      show (mapSet rooms rid [],
        (mapGet? (mapSet rooms rid []) rid).getD []) = _
      rw [mapGet?_mapSet_self]
      rfl
    rw [openHandler_fst, hgc]
    dsimp only
    have h2 : mapSet ([] : Room) cid { ws := w, id := cid, roomId := rid } =
        [(cid, { ws := w, id := cid, roomId := rid })] := by
      unfold mapSet
      rw [if_neg (by simp [mapHas])]
      simp
    rw [h2, mapGet?_mapSet_self]
  · intro room c hf hroom
    subst hroom
    rw [closeHandler_found hf]
    dsimp only
    have h1 : mapDelete [(cid, c)] cid = ([] : Room) := by
      unfold mapDelete
      simp
    rw [h1, if_pos (show ([] : Room).isEmpty = true from rfl)]
    exact mapHas_mapDelete_self _ _

/-- Witness for C1 on concrete inputs: the invariant survives a disconnect
from `sampleRegistry`; opening `"newroom"` creates it with a single member;
closing the only member of a one-member room removes the room. -/
theorem room_existence_invariant_witness :
    roomsNonempty (closeHandler sampleRegistry 1 5).1 ∧
    mapGet? (openHandler sampleRegistry 7 "c" "newroom" 3).1 "newroom" =
      some [("c", { ws := 7, id := "c", roomId := "newroom" })] ∧
    mapHas (closeHandler
      [("solo", [("x", { ws := 4, id := "x", roomId := "solo" })])] 4 9).1
      "solo" = false :=
  ⟨((room_existence_invariant sampleRegistry 1 5 "c" "newroom"
      .malformed).1 (by decide)).2.2,
   (room_existence_invariant sampleRegistry 7 3 "c" "newroom"
      .malformed).2.1 (by decide),
   (room_existence_invariant
      [("solo", [("x", { ws := 4, id := "x", roomId := "solo" })])] 4 9 "x"
      "solo" .malformed).2.2
      [("x", { ws := 4, id := "x", roomId := "solo" })]
      { ws := 4, id := "x", roomId := "solo" } (by decide) rfl⟩

/-- C6: disconnect notification — when the session of `b` closes in a room
whose members are exactly `a` and `b`, exactly one `peer-left` message with
peer id `b` and the timestamp is sent, to `a`'s websocket, and the room's
membership in the registry afterwards is exactly `a`. -/
theorem disconnect_notification (rooms : Registry) (w now : Nat)
    (rid a b : String) (ca cb : Client) (room : Room)
    (hf : findByWs rooms w = some (rid, room, b, cb))
    (hroom : room = [(a, ca), (b, cb)] ∨ room = [(b, cb), (a, ca)])
    (hab : a ≠ b) :
    (closeHandler rooms w now).2 = [(ca.ws, .peerLeft b now)] ∧
    mapGet? (closeHandler rooms w now).1 rid = some [(a, ca)] := by
  rw [closeHandler_found hf]
  have h1 : mapDelete room b = [(a, ca)] := by
    rcases hroom with h | h <;> subst h <;> simp [mapDelete, hab]
  dsimp only
  rw [h1]
  constructor
  · unfold broadcastToRoom
    rw [mapGet?_mapSet_self]
    simp [hab]
  · rw [if_neg (by simp)]
    exact mapGet?_mapSet_self _ _ _

/-- Witness for C6 on concrete inputs: closing websocket `1` (client `"b"`)
in `sampleRegistry` sends one `peer-left` for `"b"` to websocket `0` and
leaves room `"r"` holding only `"a"`. -/
theorem disconnect_notification_witness :
    (closeHandler sampleRegistry 1 42).2 =
      [(0, .peerLeft "b" 42)] ∧
    mapGet? (closeHandler sampleRegistry 1 42).1 "r" =
      some [("a", { ws := 0, id := "a", roomId := "r" })] :=
  disconnect_notification sampleRegistry 1 42 "r" "a" "b"
    { ws := 0, id := "a", roomId := "r" }
    { ws := 1, id := "b", roomId := "r" }
    [("a", { ws := 0, id := "a", roomId := "r" }),
     ("b", { ws := 1, id := "b", roomId := "r" })]
    (by decide) (Or.inl rfl) (by decide)

/-- C7: idempotent teardown — when at most one registered session holds the
closing websocket, running the close teardown a second time for the same
websocket finds no matching session, performs no removal, and sends no
message: the registry is left exactly as the first teardown left it. -/
theorem idempotent_teardown (rooms : Registry) (w t1 t2 : Nat)
    (huniq : ∀ p ∈ rooms, ∀ q ∈ p.2, ∀ p2 ∈ rooms, ∀ q2 ∈ p2.2,
      q.2.ws = w → q2.2.ws = w → p = p2 ∧ q = q2) :
    findByWs (closeHandler rooms w t1).1 w = none ∧
    closeHandler (closeHandler rooms w t1).1 w t2 =
      ((closeHandler rooms w t1).1, []) := by
  have hnone : findByWs (closeHandler rooms w t1).1 w = none := by
    cases hf : findByWs rooms w with
    | none =>
        rw [closeHandler_none hf]
        exact hf
    | some r =>
        obtain ⟨rid, room, cid, c⟩ := r
        obtain ⟨hmem, hqmem, hws⟩ := findByWs_spec hf
        rw [closeHandler_found hf]
        dsimp only
        apply findByWs_eq_none
        intro p hp q hq hqw
        have hp1 : p ∈ mapSet rooms rid (mapDelete room cid) := by
          split at hp
          · exact (mem_mapDelete hp).1
          · exact hp
        rcases mem_mapSet hp1 with he | ⟨hm, hne⟩
        · subst he
          have hq1 := mem_mapDelete hq
          have h2 := huniq (rid, room) hmem q hq1.1 (rid, room) hmem
            (cid, c) hqmem hqw hws
          exact hq1.2 (by rw [h2.2])
        · have h2 := huniq p hm q hq (rid, room) hmem (cid, c) hqmem hqw hws
          exact hne (by rw [h2.1])
  exact ⟨hnone, closeHandler_none hnone⟩

/-- Witness for C7 on concrete inputs: after websocket `1` is torn down
once in `sampleRegistry`, a second teardown for the same websocket finds
nothing and changes nothing. -/
theorem idempotent_teardown_witness :
    findByWs (closeHandler sampleRegistry 1 5).1 1 = none ∧
    closeHandler (closeHandler sampleRegistry 1 5).1 1 6 =
      ((closeHandler sampleRegistry 1 5).1, []) :=
  idempotent_teardown sampleRegistry 1 5 6 (by decide)

end Signaling
